import Mathlib

set_option maxHeartbeats 1000000
set_option maxRecDepth 100000

/-!
A shallow embedding of the ScanHanzi practice-lesson engine (the `Lesson`
React component together with its helper functions `shuffleArray` and
`pinyinToneMarksToNumbers`).

Pure helper functions of the source are translated to Lean functions.  The
stateful component is translated to an explicit state machine: the
`useState` hooks become the fields of `Session`, the two `useEffect` hooks
become an effect pass over a `CompState` that also records each effect's
dependency tuple and whether each timer (the tick `setInterval` and the
feedback `setTimeout`) is currently installed, and external commands and
timer firings become `Event`s consumed by `step`.

`Math.random()` draws are made explicit: the Fisher-Yates shuffle takes a
function `rand : Nat → Nat` supplying one draw per loop iteration, and the
mixed-mode direction draws take a `Nat` that is reduced modulo 3.

JavaScript strings are modelled as Lean `String`s (sequences of code
points, which is how the source iterates them with `for (const char of
syllable)`).  `String.prototype.normalize("NFD")` is modelled on the
character set this application handles: the tone-marked pinyin vowels
decompose into a base letter followed by combining marks in U+0300–U+036F;
ASCII and CJK ideographs are NFD-inert.  `toLowerCase` agrees with Lean's
`String.toLower` on every character appearing in this development (ASCII,
already-lowercase tone-marked vowels, CJK, Cyrillic lowercase).
-/

namespace ScanHanzi

/-- A flashcard as handed to the `Lesson` component (the `FlashcardData`
fields used anywhere in the app: `word`, `pinyin`, `translation`,
`hsk_level`, `example_sentence`, `notes`, optional `dateAdded`). -/
structure FlashcardData where
  word : String
  pinyin : String
  translation : String
  hsk_level : String
  example_sentence : String
  notes : String
  dateAdded : Option Nat
deriving DecidableEq, Repr

/-- `type LessonState = 'setup' | 'active' | 'summary'` -/
inductive LessonState where
  | setup
  | active
  | summary
deriving DecidableEq, Repr

/-- `type LessonMode = 'pinyinToHanzi' | 'hanziToPinyin' | 'translationToHanzi' | 'mixed'` -/
inductive LessonMode where
  | pinyinToHanzi
  | hanziToPinyin
  | translationToHanzi
  | mixed
deriving DecidableEq, Repr

/-- `type TurnMode = 'pinyinToHanzi' | 'hanziToPinyin' | 'translationToHanzi'` -/
inductive TurnMode where
  | pinyinToHanzi
  | hanziToPinyin
  | translationToHanzi
deriving DecidableEq, Repr

/-- `feedback` hook values: `'correct' | 'incorrect' | 'none'` -/
inductive Feedback where
  | correct
  | incorrect
  | none
deriving DecidableEq, Repr

/-- The whitespace characters matched by the JavaScript `\s` class that can
occur in this app's strings (the ASCII ones). -/
def isJsSpace (c : Char) : Bool :=
  c = ' ' || c = '\t' || c = '\n' || c = '\r' || c = '\x0b' || c = '\x0c'

/-- `String.prototype.trim()`: remove leading and trailing whitespace. -/
def jsTrim (s : String) : String :=
  ⟨((s.toList.dropWhile isJsSpace).reverse.dropWhile isJsSpace).reverse⟩

/-- `String.prototype.toLowerCase()`, which agrees with `Char.toLower`
(ASCII case mapping) on every character this development uses: ASCII,
already-lowercase tone-marked vowels, CJK ideographs, lowercase
Cyrillic. -/
def jsToLower (s : String) : String :=
  ⟨s.toList.map Char.toLower⟩

/-- `const normalize = (str) => str.trim().toLowerCase().replace(/\s+/g, '')`
from `handleCheckAnswer`: trim, lowercase, then delete every whitespace
character. -/
def normalize (s : String) : String :=
  ⟨(jsToLower (jsTrim s)).toList.filter (fun c => !isJsSpace c)⟩

/-- The `toneMap` literal of `pinyinToneMarksToNumbers`: each tone-marked
vowel maps to its base letter and tone number (`ü` maps to `v` with 5). -/
def toneMap (c : Char) : Option (Char × Nat) :=
  match c with
  | 'ā' => some ('a', 1)
  | 'á' => some ('a', 2)
  | 'ǎ' => some ('a', 3)
  | 'à' => some ('a', 4)
  | 'ō' => some ('o', 1)
  | 'ó' => some ('o', 2)
  | 'ǒ' => some ('o', 3)
  | 'ò' => some ('o', 4)
  | 'ē' => some ('e', 1)
  | 'é' => some ('e', 2)
  | 'ě' => some ('e', 3)
  | 'è' => some ('e', 4)
  | 'ī' => some ('i', 1)
  | 'í' => some ('i', 2)
  | 'ǐ' => some ('i', 3)
  | 'ì' => some ('i', 4)
  | 'ū' => some ('u', 1)
  | 'ú' => some ('u', 2)
  | 'ǔ' => some ('u', 3)
  | 'ù' => some ('u', 4)
  | 'ǖ' => some ('v', 1)
  | 'ǘ' => some ('v', 2)
  | 'ǚ' => some ('v', 3)
  | 'ǜ' => some ('v', 4)
  | 'ü' => some ('v', 5)
  | _ => Option.none

/-- ASCII letters, the characters the split regex's `[a-z]` with flag `i`
matches (case-insensitive matching does not extend `[a-z]` beyond ASCII). -/
def isAsciiLetter (c : Char) : Bool :=
  ('a' ≤ c && c ≤ 'z') || ('A' ≤ c && c ≤ 'Z')

/-- `pinyin.split(/(?<=[a-z])(?=[a-z])/i)`: the regex matches the empty
string exactly at positions whose two surrounding characters are both
ASCII letters, so the string is cut at every such boundary.  A tone-marked
vowel is not an ASCII letter and therefore never separated from its
neighbours.  `"".split` yields `[""]`. -/
def splitSyllables : List Char → List (List Char)
  | [] => [[]]
  | [c] => [[c]]
  | c₁ :: c₂ :: rest =>
    if isAsciiLetter c₁ && isAsciiLetter c₂ then
      [c₁] :: splitSyllables (c₂ :: rest)
    else
      match splitSyllables (c₂ :: rest) with
      | [] => [[c₁]]
      | s :: ss => (c₁ :: s) :: ss

/-- The loop body of `syllables.map(...)` in `pinyinToneMarksToNumbers`:
walk the chunk accumulating `result`, remembering the tone number of the
most recent tone-mapped character and whether one was seen; finally append
the tone digit only if `toneFound`. -/
def processSyllableAux : List Char → List Char → Nat → Bool → List Char
  | [], result, tone, toneFound =>
    result ++ (if toneFound then (toString tone).toList else [])
  | c :: rest, result, tone, toneFound =>
    match toneMap c with
    | some (base, t) => processSyllableAux rest (result ++ [base]) t true
    | Option.none => processSyllableAux rest (result ++ [c]) tone toneFound

/-- One chunk of `pinyinToneMarksToNumbers` (`result` starts empty, `tone`
starts at 5, `toneFound` starts false). -/
def processSyllable (syl : List Char) : String :=
  (processSyllableAux syl [] 5 false).asString

/-- `pinyinToneMarksToNumbers` from the source: split, rewrite each chunk,
join with `''`. -/
def pinyinToneMarksToNumbers (pinyin : String) : String :=
  String.join ((splitSyllables pinyin.toList).map processSyllable)

/-- Canonical (NFD) decomposition restricted to the characters this app
handles: each tone-marked pinyin vowel decomposes into its base letter
followed by combining marks; every other character occurring here (ASCII,
CJK, Cyrillic) is NFD-inert. -/
def nfdChar (c : Char) : List Char :=
  match c with
  | 'ā' => ['a', '̄']
  | 'á' => ['a', '́']
  | 'ǎ' => ['a', '̌']
  | 'à' => ['a', '̀']
  | 'ō' => ['o', '̄']
  | 'ó' => ['o', '́']
  | 'ǒ' => ['o', '̌']
  | 'ò' => ['o', '̀']
  | 'ē' => ['e', '̄']
  | 'é' => ['e', '́']
  | 'ě' => ['e', '̌']
  | 'è' => ['e', '̀']
  | 'ī' => ['i', '̄']
  | 'í' => ['i', '́']
  | 'ǐ' => ['i', '̌']
  | 'ì' => ['i', '̀']
  | 'ū' => ['u', '̄']
  | 'ú' => ['u', '́']
  | 'ǔ' => ['u', '̌']
  | 'ù' => ['u', '̀']
  | 'ǖ' => ['u', '̈', '̄']
  | 'ǘ' => ['u', '̈', '́']
  | 'ǚ' => ['u', '̈', '̌']
  | 'ǜ' => ['u', '̈', '̀']
  | 'ü' => ['u', '̈']
  | _ => [c]

/-- The combining diacritical marks block U+0300–U+036F, the class removed
by `.replace(/[̀-ͯ]/g, "")`. -/
def isCombiningMark (c : Char) : Bool :=
  0x300 ≤ c.val && c.val ≤ 0x36F

/-- `str.normalize("NFD").replace(/[̀-ͯ]/g, "")` from the
`hanziToPinyin` branch of `handleCheckAnswer`. -/
def stripDiacritics (s : String) : String :=
  ⟨((s.toList.map nfdChar).flatten).filter (fun c => !isCombiningMark c)⟩

/-- The answer comparison of `handleCheckAnswer`, per turn mode:
`hanziToPinyin` accepts the normalized input if it is the normalized
canonical pinyin, its tone-number rewriting, or its diacritic-stripped
form; `pinyinToHanzi` and `translationToHanzi` require the normalized
input to equal the normalized canonical word. -/
def compareAnswer (turnMode : TurnMode) (card : FlashcardData) (userInput : String) : Bool :=
  match turnMode with
  | TurnMode.hanziToPinyin =>
    let correctPinyinWithMarks := normalize card.pinyin
    let correctPinyinWithNumbers := pinyinToneMarksToNumbers correctPinyinWithMarks
    let correctPinyinNoTones := stripDiacritics correctPinyinWithMarks
    let userInputNormalized := normalize userInput
    [correctPinyinWithMarks, correctPinyinWithNumbers, correctPinyinNoTones].contains
      userInputNormalized
  | TurnMode.pinyinToHanzi => normalize userInput == normalize card.word
  | TurnMode.translationToHanzi => normalize userInput == normalize card.word

/-- `const LESSON_DURATION = 300` — the time budget, in seconds. -/
def LESSON_DURATION : Nat := 300

/-- `const LESSON_CARD_GOAL = 30` — used only for the progress bar. -/
def LESSON_CARD_GOAL : Nat := 30

/-- The swap step `[array[i], array[j]] = [array[j], array[i]]`: read both
entries, then write each into the other position.  Out-of-range indices
leave the list unchanged (they never occur in `shuffleArray`). -/
def listSwap {α : Type} (l : List α) (i j : Nat) : List α :=
  match l.get? i, l.get? j with
  | some a, some b => (l.set i b).set j a
  | _, _ => l

/-- The loop of `shuffleArray`: with `currentIndex = k + 1`, draw
`randomIndex = Math.floor(Math.random() * currentIndex)` — modelled as
`rand (k + 1) % (k + 1)`, a value in `[0, k + 1)` — decrement
`currentIndex` to `k`, swap positions `k` and `randomIndex`, repeat while
`currentIndex ≠ 0`. -/
def fisherYatesAux {α : Type} (rand : Nat → Nat) : Nat → List α → List α
  | 0, l => l
  | k + 1, l => fisherYatesAux rand k (listSwap l k (rand (k + 1) % (k + 1)))

/-- `shuffleArray` (Fisher-Yates); the caller passes a copy of the deck, so
the mutation in the source is modelled by a pure function. -/
def shuffleArray {α : Type} (rand : Nat → Nat) (l : List α) : List α :=
  fisherYatesAux rand l.length l

/-- The `useState` hooks of the `Lesson` component, gathered in one
record. -/
structure Session where
  lessonState : LessonState
  lessonMode : LessonMode
  shuffledDeck : List FlashcardData
  currentCardIndex : Nat
  currentTurnMode : TurnMode
  userInput : String
  feedback : Feedback
  score : Nat
  timeLeft : Nat
  cardsAnswered : Nat
  isPaused : Bool
  incorrectAnswers : List FlashcardData
deriving DecidableEq, Repr

/-- `modes[Math.floor(Math.random() * modes.length)]` with
`modes = ['hanziToPinyin', 'pinyinToHanzi', 'translationToHanzi']`;
the draw is supplied as a `Nat` reduced modulo 3. -/
def drawTurnMode (r : Nat) : TurnMode :=
  [TurnMode.hanziToPinyin, TurnMode.pinyinToHanzi, TurnMode.translationToHanzi].getD
    (r % 3) TurnMode.hanziToPinyin

/-- The cast `lessonMode as TurnMode` in `handleStartLesson`, taken only
when `lessonMode ≠ 'mixed'`; `mixed` is mapped arbitrarily (unreachable). -/
def toTurnMode : LessonMode → TurnMode
  | LessonMode.pinyinToHanzi => TurnMode.pinyinToHanzi
  | LessonMode.hanziToPinyin => TurnMode.hanziToPinyin
  | LessonMode.translationToHanzi => TurnMode.translationToHanzi
  | LessonMode.mixed => TurnMode.hanziToPinyin

/-- `handleStartLesson`: refuse an empty deck, otherwise reset score, time,
missed list, deck (freshly shuffled), index, answered count and pause
flag, pick the initial turn mode (drawn when `lessonMode = 'mixed'`), and
enter the active state.  Note that `feedback` and `userInput` are not
reset. -/
def handleStartLesson (rand : Nat → Nat) (dirRand : Nat)
    (flashcards : List FlashcardData) (s : Session) : Session :=
  if flashcards.length = 0 then s
  else
    { s with
      score := 0
      timeLeft := LESSON_DURATION
      incorrectAnswers := []
      shuffledDeck := shuffleArray rand flashcards
      currentCardIndex := 0
      cardsAnswered := 0
      isPaused := false
      currentTurnMode :=
        if s.lessonMode = LessonMode.mixed then drawTurnMode dirRand
        else toTurnMode s.lessonMode
      lessonState := LessonState.active }

/-- `handleCheckAnswer`: ignore blank input or a submission while feedback
is showing; otherwise validate the current card's answer, count the turn,
and either bump the score (correct) or record the missed card unless one
with the same `word` is already listed (incorrect).  If the current index
were out of range the source would throw on `currentCard.pinyin` before
any state update, so the session is left unchanged in that case. -/
def handleCheckAnswer (s : Session) : Session :=
  if (jsTrim s.userInput) = "" ∨ s.feedback ≠ Feedback.none then s
  else
    match s.shuffledDeck.get? s.currentCardIndex with
    | Option.none => s
    | some currentCard =>
      let isCorrect := compareAnswer s.currentTurnMode currentCard s.userInput
      let s := { s with cardsAnswered := s.cardsAnswered + 1 }
      if isCorrect then
        { s with score := s.score + 1, feedback := Feedback.correct }
      else
        { s with
          feedback := Feedback.incorrect
          incorrectAnswers :=
            if s.incorrectAnswers.any (fun c => c.word == currentCard.word) then
              s.incorrectAnswers
            else s.incorrectAnswers ++ [currentCard] }

/-- The callback of the tick `setInterval`:
`setTimeLeft(prev => prev - 1)`. -/
def applyTick (s : Session) : Session :=
  { s with timeLeft := s.timeLeft - 1 }

/-- The callback of the feedback `setTimeout`: clear feedback, clear the
input buffer, advance the index cyclically, and redraw the turn mode when
the lesson mode is `'mixed'`. -/
def applyAdvance (dirRand : Nat) (s : Session) : Session :=
  let s' := { s with
    feedback := Feedback.none
    userInput := ""
    currentCardIndex := (s.currentCardIndex + 1) % s.shuffledDeck.length }
  if s'.lessonMode = LessonMode.mixed then
    { s' with currentTurnMode := drawTurnMode dirRand }
  else s'

/-- The dependency tuple `[lessonState, timeLeft, isPaused]` of the first
`useEffect` (the tick interval). -/
def eff1DepsOf (s : Session) : LessonState × Nat × Bool :=
  (s.lessonState, s.timeLeft, s.isPaused)

/-- The dependency tuple `[feedback, shuffledDeck.length, lessonMode]` of
the second `useEffect` (the feedback auto-advance timeout). -/
def eff2DepsOf (s : Session) : Feedback × Nat × LessonMode :=
  (s.feedback, s.shuffledDeck.length, s.lessonMode)

/-- The component state: the hooks (`sess`), whether the tick interval and
the auto-advance timeout are currently installed, and the dependency
tuples recorded when each effect last ran (React re-runs an effect only
when its dependencies changed). -/
structure CompState where
  sess : Session
  tickInstalled : Bool
  advPending : Bool
  eff1Deps : LessonState × Nat × Bool
  eff2Deps : Feedback × Nat × LessonMode
deriving DecidableEq, Repr

/-- One run of the first `useEffect` after a render: if its dependencies
changed, run the previous cleanup (`clearInterval` — a no-op when no
interval is installed), record the new dependencies, then run the body:
install the interval while `active && !isPaused && timeLeft > 0`, else if
`timeLeft === 0 && lessonState === 'active'` switch to the summary
state. -/
def runEffect1 (c : CompState) : CompState :=
  if eff1DepsOf c.sess = c.eff1Deps then c
  else
    let c := { c with tickInstalled := false, eff1Deps := eff1DepsOf c.sess }
    if c.sess.lessonState = LessonState.active ∧ c.sess.isPaused = false ∧
        0 < c.sess.timeLeft then
      { c with tickInstalled := true }
    else if c.sess.timeLeft = 0 ∧ c.sess.lessonState = LessonState.active then
      { c with sess := { c.sess with lessonState := LessonState.summary } }
    else c

/-- One run of the second `useEffect` after a render: if its dependencies
changed, run the previous cleanup (`clearTimeout` — a no-op when no
timeout is pending), record the new dependencies, then run the body:
schedule the auto-advance timeout when `feedback !== 'none'`. -/
def runEffect2 (c : CompState) : CompState :=
  if eff2DepsOf c.sess = c.eff2Deps then c
  else
    let c := { c with advPending := false, eff2Deps := eff2DepsOf c.sess }
    if c.sess.feedback ≠ Feedback.none then { c with advPending := true } else c

/-- One render's effect pass, in declaration order. -/
def runEffects (c : CompState) : CompState :=
  runEffect2 (runEffect1 c)

/-- Run effect passes to the fixpoint.  The only state change an effect
body performs is `setLessonState('summary')` in the first effect, which
triggers one more render; that second pass can change nothing further
(the session is then in the summary state), so two passes reach the
fixpoint. -/
def settle (c : CompState) : CompState :=
  runEffects (runEffects c)

/-- External commands and timer firings driving the component. -/
inductive Event where
  | tick
  | advanceFire (dirRand : Nat)
  | submit
  | setInput (text : String)
  | setMode (m : LessonMode)
  | togglePause
  | pressResume
  | exitLesson
  | start (rand : Nat → Nat) (dirRand : Nat) (flashcards : List FlashcardData)

/-- One step of the component: apply the event's handler (a timer callback
fires only while its timer is installed; a firing `setTimeout` is
consumed), then let React re-render and run the effects. -/
def step (c : CompState) (e : Event) : Option CompState :=
  match e with
  | Event.tick =>
    if c.tickInstalled then some (settle { c with sess := applyTick c.sess })
    else Option.none
  | Event.advanceFire r =>
    if c.advPending then
      some (settle { c with advPending := false, sess := applyAdvance r c.sess })
    else Option.none
  | Event.submit => some (settle { c with sess := handleCheckAnswer c.sess })
  | Event.setInput t => some (settle { c with sess := { c.sess with userInput := t } })
  | Event.setMode m => some (settle { c with sess := { c.sess with lessonMode := m } })
  | Event.togglePause =>
    some (settle { c with sess := { c.sess with isPaused := !c.sess.isPaused } })
  | Event.pressResume =>
    some (settle { c with sess := { c.sess with isPaused := false } })
  | Event.exitLesson =>
    some (settle { c with sess := { c.sess with lessonState := LessonState.setup } })
  | Event.start rand r fc =>
    some (settle { c with sess := handleStartLesson rand r fc c.sess })

/-- Run a sequence of events; `none` if some timer event fires while its
timer is not installed. -/
def run (c : CompState) : List Event → Option CompState
  | [] => some c
  | e :: es =>
    match step c e with
    | some c' => run c' es
    | Option.none => Option.none

/-- The hooks' initial values. -/
def initSession : Session :=
  { lessonState := LessonState.setup
    lessonMode := LessonMode.hanziToPinyin
    shuffledDeck := []
    currentCardIndex := 0
    currentTurnMode := TurnMode.hanziToPinyin
    userInput := ""
    feedback := Feedback.none
    score := 0
    timeLeft := LESSON_DURATION
    cardsAnswered := 0
    isPaused := false
    incorrectAnswers := [] }

/-- The component just after mounting: on the first render both effect
bodies run; for the initial session (setup state, no feedback) neither
installs a timer, and the dependency tuples are recorded. -/
def initComp : CompState :=
  { sess := initSession
    tickInstalled := false
    advPending := false
    eff1Deps := eff1DepsOf initSession
    eff2Deps := eff2DepsOf initSession }

/-- Sample card (`你` / `nǐ`). -/
def cardNi : FlashcardData :=
  ⟨"你", "nǐ", "ты", "1", "", "", Option.none⟩

/-- Sample card (`好` / `hǎo`). -/
def cardHao : FlashcardData :=
  ⟨"好", "hǎo", "хороший", "1", "", "", Option.none⟩

/-- Sample card (`你好` / `nǐ hǎo`), the entry of the spec's examples. -/
def cardNiHao : FlashcardData :=
  ⟨"你好", "nǐ hǎo", "привет", "1", "", "", Option.none⟩

/-- Sample card with an untoned pronunciation (`吗` / `ma`). -/
def cardMa : FlashcardData :=
  ⟨"吗", "ma", "ли", "1", "", "", Option.none⟩

/-- All `Session` fields except `lessonState` agree between `s` and `s'`
(the session-level frame that every effect pass preserves: effect bodies
only ever write `lessonState`). -/
def SessFrame (s s' : Session) : Prop :=
  s'.lessonMode = s.lessonMode ∧
  s'.shuffledDeck = s.shuffledDeck ∧
  s'.currentCardIndex = s.currentCardIndex ∧
  s'.currentTurnMode = s.currentTurnMode ∧
  s'.userInput = s.userInput ∧
  s'.feedback = s.feedback ∧
  s'.score = s.score ∧
  s'.timeLeft = s.timeLeft ∧
  s'.cardsAnswered = s.cardsAnswered ∧
  s'.isPaused = s.isPaused ∧
  s'.incorrectAnswers = s.incorrectAnswers

/-- A concrete active session about to submit the (wrong) answer `"x"`. -/
def sampleActive : Session :=
  { lessonState := LessonState.active
    lessonMode := LessonMode.hanziToPinyin
    shuffledDeck := [cardNiHao, cardNi]
    currentCardIndex := 0
    currentTurnMode := TurnMode.hanziToPinyin
    userInput := "x"
    feedback := Feedback.none
    score := 0
    timeLeft := 300
    cardsAnswered := 0
    isPaused := false
    incorrectAnswers := [] }

/-- A concrete active session while feedback is showing. -/
def sampleFeedbackShown : Session :=
  { lessonState := LessonState.active
    lessonMode := LessonMode.hanziToPinyin
    shuffledDeck := [cardNiHao, cardNi]
    currentCardIndex := 0
    currentTurnMode := TurnMode.hanziToPinyin
    userInput := "x"
    feedback := Feedback.incorrect
    score := 0
    timeLeft := 299
    cardsAnswered := 1
    isPaused := false
    incorrectAnswers := [cardNiHao] }

/-- The component state reached by starting a two-card lesson, answering
`"x"` (incorrectly), and pausing: feedback is showing, the auto-advance
timeout is pending, the tick interval is uninstalled, both dependency
tuples are recorded. -/
def samplePaused : CompState :=
  { sess :=
      { lessonState := LessonState.active
        lessonMode := LessonMode.hanziToPinyin
        shuffledDeck := [cardHao, cardNi]
        currentCardIndex := 0
        currentTurnMode := TurnMode.hanziToPinyin
        userInput := "x"
        feedback := Feedback.incorrect
        score := 0
        timeLeft := 300
        cardsAnswered := 1
        isPaused := true
        incorrectAnswers := [cardHao] }
    tickInstalled := false
    advPending := true
    eff1Deps := (LessonState.active, 300, true)
    eff2Deps := (Feedback.incorrect, 2, LessonMode.hanziToPinyin) }

/-- A settled component state one tick before time expiry, with feedback
showing and the auto-advance timeout pending. -/
def sampleNearEnd : CompState :=
  { sess :=
      { lessonState := LessonState.active
        lessonMode := LessonMode.hanziToPinyin
        shuffledDeck := [cardHao, cardNi]
        currentCardIndex := 0
        currentTurnMode := TurnMode.hanziToPinyin
        userInput := "x"
        feedback := Feedback.incorrect
        score := 0
        timeLeft := 1
        cardsAnswered := 1
        isPaused := false
        incorrectAnswers := [cardHao] }
    tickInstalled := true
    advPending := true
    eff1Deps := (LessonState.active, 1, false)
    eff2Deps := (Feedback.incorrect, 2, LessonMode.hanziToPinyin) }

/-- `sampleActive` as a settled component state (tick running, no pending
auto-advance). -/
def sampleActiveComp : CompState :=
  { sess := sampleActive
    tickInstalled := true
    advPending := false
    eff1Deps := eff1DepsOf sampleActive
    eff2Deps := eff2DepsOf sampleActive }

/-- Event trace: start a two-card lesson, answer `"x"` (incorrectly), then
pause while the feedback auto-advance timeout is pending. -/
def pausedTrace : List Event :=
  [Event.start (fun _ => 0) 0 [cardNi, cardHao],
   Event.setInput "x", Event.submit, Event.togglePause]

/-- Event trace: start a two-card lesson, let 299 ticks pass, answer `"x"`
(incorrectly) with one time unit left, then deliver the tick that drives
the remaining time to 0 while the auto-advance timeout is pending. -/
def expiryTrace : List Event :=
  [Event.start (fun _ => 0) 0 [cardNi, cardHao]] ++
    List.replicate 299 Event.tick ++
    [Event.setInput "x", Event.submit, Event.tick]

/-! ## Permutation lemmas for the Fisher-Yates shuffle -/

/-- The concrete paused state used below is exactly the state the
component reaches by running `pausedTrace` from the mounted component. -/
theorem samplePaused_reachable : run initComp pausedTrace = some samplePaused := by
  decide

/-- Replacing the `j`-th element `b` of `t` by `a` and re-adding `b` in
front is a permutation of adding `a` in front. -/
theorem set_perm_cons {α : Type} (a : α) (t : List α) (j : Nat) (b : α)
    (h : t.get? j = some b) : (b :: t.set j a).Perm (a :: t) := by
  induction t generalizing j with
  | nil => simp at h
  | cons c t ih =>
    cases j with
    | zero =>
      simp only [List.get?_cons_zero, Option.some.injEq] at h
      subst h
      exact List.Perm.swap a c t
    | succ j =>
      simp only [List.get?_cons_succ] at h
      have step1 : (b :: c :: t.set j a).Perm (c :: b :: t.set j a) :=
        List.Perm.swap c b (t.set j a)
      have step2 : (c :: b :: t.set j a).Perm (c :: a :: t) :=
        List.Perm.cons c (ih j h)
      have step3 : (c :: a :: t).Perm (a :: c :: t) := List.Perm.swap a c t
      exact (step1.trans step2).trans step3

/-- Writing `b` at position `i` and `a` at a later position `j`, where `a`
and `b` were the original elements, permutes the list. -/
theorem set_set_perm_lt {α : Type} :
    ∀ (l : List α) (i j : Nat) (a b : α), i < j →
      l.get? i = some a → l.get? j = some b → ((l.set i b).set j a).Perm l
  | [], i, _, _, _, _, ha, _ => by simp at ha
  | c :: t, 0, j, a, b, hij, ha, hb => by
    cases j with
    | zero => exact absurd hij (Nat.lt_irrefl 0)
    | succ j =>
      simp only [List.get?_cons_zero, Option.some.injEq] at ha
      simp only [List.get?_cons_succ] at hb
      subst ha
      exact set_perm_cons c t j b hb
  | c :: t, i + 1, j, a, b, hij, ha, hb => by
    cases j with
    | zero => exact absurd hij (Nat.not_lt_zero _)
    | succ j =>
      simp only [List.get?_cons_succ] at ha hb
      exact List.Perm.cons c
        (set_set_perm_lt t i j a b (Nat.lt_of_succ_lt_succ hij) ha hb)

/-- Writing back the element already at position `i` changes nothing. -/
theorem set_self_eq {α : Type} :
    ∀ (l : List α) (i : Nat) (a : α), l.get? i = some a → l.set i a = l
  | [], _, _, h => by simp at h
  | c :: t, 0, a, h => by
    simp only [List.get?_cons_zero, Option.some.injEq] at h
    subst h
    rfl
  | c :: t, i + 1, a, h => by
    simp only [List.get?_cons_succ] at h
    simp [List.set, set_self_eq t i a h]

/-- The JavaScript-style swap permutes the list, for arbitrary indices. -/
theorem listSwap_perm {α : Type} (l : List α) (i j : Nat) :
    (listSwap l i j).Perm l := by
  rcases hi : l.get? i with _ | a
  · simp only [listSwap, hi]
    exact List.Perm.refl l
  · rcases hj : l.get? j with _ | b
    · simp only [listSwap, hi, hj]
      exact List.Perm.refl l
    · simp only [listSwap, hi, hj]
      rcases Nat.lt_trichotomy i j with hij | hij | hij
      · exact set_set_perm_lt l i j a b hij hi hj
      · subst hij
        rw [hi] at hj
        injection hj with hab
        subst hab
        rw [List.set_set, set_self_eq l i a hi]
      · rw [List.set_comm b a l (Nat.ne_of_gt hij)]
        exact set_set_perm_lt l j i b a hij hj hi

/-- Every round of the Fisher-Yates loop permutes the list. -/
theorem fisherYatesAux_perm {α : Type} (rand : Nat → Nat) :
    ∀ (k : Nat) (l : List α), (fisherYatesAux rand k l).Perm l
  | 0, l => List.Perm.refl l
  | k + 1, l =>
    (fisherYatesAux_perm rand k (listSwap l k (rand (k + 1) % (k + 1)))).trans
      (listSwap_perm l k (rand (k + 1) % (k + 1)))

/-- C9: for every input sequence (including the empty one) and every
sequence of random draws, `shuffleArray` returns a permutation of its
input — the same multiset and the same length; the empty input returns
empty. -/
theorem C9_shuffleArray_perm {α : Type} (rand : Nat → Nat) (l : List α) :
    (shuffleArray rand l).Perm l ∧
    ((shuffleArray rand l : List α) : Multiset α) = (l : Multiset α) ∧
    (shuffleArray rand l).length = l.length ∧
    shuffleArray rand ([] : List α) = [] := by
  have h : (shuffleArray rand l).Perm l := fisherYatesAux_perm rand l.length l
  exact ⟨h, Multiset.coe_eq_coe.mpr h, h.length_eq, rfl⟩

/-! ## The answer validator -/

/-- C2 counterexample: for the entry with pronunciation `"nǐ hǎo"`, the
input `"ni3hao3"` is rejected — the numeric-tone form the code builds is
not the per-syllable rewriting the claim describes. -/
theorem C2_cex :
    compareAnswer TurnMode.hanziToPinyin cardNiHao "ni3hao3" = false := by
  decide

/-- C2 (amended): the numeric-tone form is built by cutting the normalized
pronunciation only between two adjacent ASCII letters; a tone-marked vowel
is not an ASCII letter, so it merges its neighbours into one chunk whose
single tone digit (that of the last mark) is appended at the chunk's end.
For `"nǐ hǎo"` the whole string is one chunk and the numeric form is
`"nihao3"`: `compare` accepts `"nihao3"` and rejects `"ni3hao3"`. -/
theorem C2_amended :
    splitSyllables (normalize "nǐ hǎo").toList = [(normalize "nǐ hǎo").toList] ∧
    pinyinToneMarksToNumbers (normalize "nǐ hǎo") = "nihao3" ∧
    compareAnswer TurnMode.hanziToPinyin cardNiHao "nihao3" = true ∧
    compareAnswer TurnMode.hanziToPinyin cardNiHao "ni3hao3" = false := by
  exact ⟨by decide, by decide, by decide, by decide⟩

/-- C4 counterexample: the pronunciation `"ma"` carries no tone mark, yet
its rewriting is `"ma"` — no digit `5` is appended (the last character is
`'a'`), and the input `"ma5"` is rejected. -/
theorem C4_cex :
    pinyinToneMarksToNumbers (normalize "ma") = "ma" ∧
    (pinyinToneMarksToNumbers (normalize "ma")).toList.getLast? = some 'a' ∧
    compareAnswer TurnMode.hanziToPinyin cardMa "ma5" = false := by
  exact ⟨by decide, by decide, by decide⟩

/-- A chunk containing no tone-mapped character is copied unchanged: the
tone variable stays at its initial 5 but `toneFound` stays false, so no
digit is appended. -/
theorem processSyllableAux_no_tone (res : List Char) (tone : Nat) :
    ∀ (syl : List Char), (∀ c ∈ syl, toneMap c = Option.none) →
      processSyllableAux syl res tone false = res ++ syl := by
  intro syl
  induction syl generalizing res tone with
  | nil => intro _; simp [processSyllableAux]
  | cons c rest ih =>
    intro h
    have hc : toneMap c = Option.none := h c (List.mem_cons_self c rest)
    have hrest : ∀ x ∈ rest, toneMap x = Option.none := fun x hx =>
      h x (List.mem_cons_of_mem c hx)
    simp only [processSyllableAux, hc]
    rw [ih (res ++ [c]) tone hrest]
    simp

/-- C4 (amended): a syllable chunk with no tone-mapped character gets no
digit at all — the digit is appended only when a mapped character was
seen; the digit `5` can only come from a bare `'ü'`, which rewrites to
`'v'` with tone 5. -/
theorem C4_amended (syl : List Char) (h : ∀ c ∈ syl, toneMap c = Option.none) :
    processSyllable syl = syl.asString ∧ processSyllable ['n', 'ü'] = "nv5" := by
  constructor
  · unfold processSyllable
    rw [processSyllableAux_no_tone [] 5 syl h]
    simp
  · decide

/-- C4 witness: the amended statement at the concrete chunk `['m', 'a']`. -/
theorem C4_witness :
    (∀ c ∈ ['m', 'a'], toneMap c = Option.none) ∧
    (processSyllable ['m', 'a'] = (['m', 'a'] : List Char).asString ∧
      processSyllable ['n', 'ü'] = "nv5") :=
  ⟨by decide, C4_amended ['m', 'a'] (by decide)⟩

/-- C7: for the `pinyinToHanzi` and `translationToHanzi` directions the
comparison succeeds exactly when the normalized input equals the
normalized canonical word; in particular `" 你好 "` matches the word
`"你好"` and `"你"` does not. -/
theorem C7_exact_word_match (card : FlashcardData) (input : String) :
    (compareAnswer TurnMode.pinyinToHanzi card input = true ↔
      normalize input = normalize card.word) ∧
    (compareAnswer TurnMode.translationToHanzi card input = true ↔
      normalize input = normalize card.word) ∧
    compareAnswer TurnMode.pinyinToHanzi cardNiHao " 你好 " = true ∧
    compareAnswer TurnMode.pinyinToHanzi cardNiHao "你" = false := by
  refine ⟨?_, ?_, by decide, by decide⟩ <;>
    simp [compareAnswer]

/-- C9 witness: the permutation theorem at a concrete two-card deck. -/
theorem C9_witness :
    (shuffleArray (fun _ => 0) [cardNi, cardHao]).Perm [cardNi, cardHao] :=
  (C9_shuffleArray_perm (fun _ => 0) [cardNi, cardHao]).1

/-- C7 witness: the exact-match theorem at the spec's concrete inputs. -/
theorem C7_witness :
    compareAnswer TurnMode.pinyinToHanzi cardNiHao " 你好 " = true ∧
    compareAnswer TurnMode.pinyinToHanzi cardNiHao "你" = false :=
  ⟨(C7_exact_word_match cardNiHao " 你好 ").2.2.1,
    (C7_exact_word_match cardNiHao "你").2.2.2⟩

/-- C8: starting a lesson on a nonempty deck yields an active session with
score 0, no turns answered, an empty missed list, not paused, index 0,
and the full time budget `LESSON_DURATION = 300`. -/
theorem C8_start (rand : Nat → Nat) (dirRand : Nat)
    (flashcards : List FlashcardData) (s : Session) (h : flashcards ≠ []) :
    (handleStartLesson rand dirRand flashcards s).lessonState = LessonState.active ∧
    (handleStartLesson rand dirRand flashcards s).score = 0 ∧
    (handleStartLesson rand dirRand flashcards s).cardsAnswered = 0 ∧
    (handleStartLesson rand dirRand flashcards s).incorrectAnswers = [] ∧
    (handleStartLesson rand dirRand flashcards s).isPaused = false ∧
    (handleStartLesson rand dirRand flashcards s).currentCardIndex = 0 ∧
    (handleStartLesson rand dirRand flashcards s).timeLeft = LESSON_DURATION ∧
    LESSON_DURATION = 300 := by
  have hlen : ¬ flashcards.length = 0 := by
    simpa using h
  simp [handleStartLesson, hlen, LESSON_DURATION]

/-- C8 witness: the start theorem at a concrete two-card deck. -/
theorem C8_witness :
    ([cardNi, cardHao] : List FlashcardData) ≠ [] ∧
    ((handleStartLesson (fun _ => 0) 0 [cardNi, cardHao] initSession).lessonState
        = LessonState.active ∧
      (handleStartLesson (fun _ => 0) 0 [cardNi, cardHao] initSession).score = 0 ∧
      (handleStartLesson (fun _ => 0) 0 [cardNi, cardHao] initSession).cardsAnswered = 0 ∧
      (handleStartLesson (fun _ => 0) 0 [cardNi, cardHao] initSession).incorrectAnswers = [] ∧
      (handleStartLesson (fun _ => 0) 0 [cardNi, cardHao] initSession).isPaused = false ∧
      (handleStartLesson (fun _ => 0) 0 [cardNi, cardHao] initSession).currentCardIndex = 0 ∧
      (handleStartLesson (fun _ => 0) 0 [cardNi, cardHao] initSession).timeLeft = LESSON_DURATION ∧
      LESSON_DURATION = 300) :=
  ⟨by decide, C8_start (fun _ => 0) 0 [cardNi, cardHao] initSession (by decide)⟩

/-! ## Scoring -/

/-- A submission while feedback is showing leaves the session unchanged
(the guard at the top of `handleCheckAnswer`). -/
theorem handleCheckAnswer_of_feedback_ne (s : Session)
    (h : s.feedback ≠ Feedback.none) : handleCheckAnswer s = s := by
  simp [handleCheckAnswer, h]

/-- C5: an accepted submission counts the turn unconditionally, bumps the
score exactly when the answer is correct, and on an incorrect answer
appends the current card to the missed list only when no card with the
same word is already there; the old missed list is a prefix of the new one
(order of first misses preserved), and after an incorrect answer the
missed list holds exactly one card with the current word (duplicate misses
collapse). -/
theorem C5_recordAnswer (s : Session) (card : FlashcardData)
    (hInput : jsTrim s.userInput ≠ "") (hFb : s.feedback = Feedback.none)
    (hCard : s.shuffledDeck.get? s.currentCardIndex = some card) :
    (handleCheckAnswer s).cardsAnswered = s.cardsAnswered + 1 ∧
    (handleCheckAnswer s).score =
      s.score + (if compareAnswer s.currentTurnMode card s.userInput then 1 else 0) ∧
    (handleCheckAnswer s).incorrectAnswers =
      (if compareAnswer s.currentTurnMode card s.userInput then s.incorrectAnswers
       else if s.incorrectAnswers.any (fun c => c.word == card.word) then
         s.incorrectAnswers
       else s.incorrectAnswers ++ [card]) ∧
    s.incorrectAnswers <+: (handleCheckAnswer s).incorrectAnswers ∧
    (compareAnswer s.currentTurnMode card s.userInput = false →
      (handleCheckAnswer s).incorrectAnswers.countP (fun c => c.word == card.word) =
        max (s.incorrectAnswers.countP (fun c => c.word == card.word)) 1) := by
  simp only [handleCheckAnswer, hInput, hFb, hCard]
  by_cases hc : compareAnswer s.currentTurnMode card s.userInput
  · simp [hc]
  · simp only [hc, Bool.false_eq_true, if_false, if_neg]
    by_cases hd : s.incorrectAnswers.any (fun c => c.word == card.word)
    · have hpos : 0 < s.incorrectAnswers.countP (fun c => c.word == card.word) := by
        rw [List.countP_pos_iff]
        obtain ⟨x, hx, hpx⟩ := List.any_eq_true.mp hd
        exact ⟨x, hx, hpx⟩
      simp [hd, Nat.max_eq_left hpos]
    · have hzero : s.incorrectAnswers.countP (fun c => c.word == card.word) = 0 := by
        rw [List.countP_eq_zero]
        intro x hx
        have := List.any_eq_false.mp (Bool.not_eq_true _ ▸ hd) x hx
        simpa using this
      simp [hd, hzero, List.countP_append, List.prefix_append]

/-- C5 witness: the record theorem at a concrete active session whose
submitted answer `"x"` is wrong for the current card `cardNiHao`. -/
theorem C5_witness :
    jsTrim sampleActive.userInput ≠ "" ∧
    sampleActive.feedback = Feedback.none ∧
    sampleActive.shuffledDeck.get? sampleActive.currentCardIndex = some cardNiHao ∧
    ((handleCheckAnswer sampleActive).cardsAnswered = sampleActive.cardsAnswered + 1 ∧
      (handleCheckAnswer sampleActive).score =
        sampleActive.score +
          (if compareAnswer sampleActive.currentTurnMode cardNiHao sampleActive.userInput
           then 1 else 0) ∧
      (handleCheckAnswer sampleActive).incorrectAnswers =
        (if compareAnswer sampleActive.currentTurnMode cardNiHao sampleActive.userInput
         then sampleActive.incorrectAnswers
         else if sampleActive.incorrectAnswers.any (fun c => c.word == cardNiHao.word) then
           sampleActive.incorrectAnswers
         else sampleActive.incorrectAnswers ++ [cardNiHao]) ∧
      sampleActive.incorrectAnswers <+: (handleCheckAnswer sampleActive).incorrectAnswers ∧
      (compareAnswer sampleActive.currentTurnMode cardNiHao sampleActive.userInput = false →
        (handleCheckAnswer sampleActive).incorrectAnswers.countP
            (fun c => c.word == cardNiHao.word) =
          max (sampleActive.incorrectAnswers.countP (fun c => c.word == cardNiHao.word)) 1)) :=
  ⟨by decide, by decide, by decide,
    C5_recordAnswer sampleActive cardNiHao (by decide) (by decide) (by decide)⟩

/-- C6: a submission arriving while feedback is not `none` is ignored
(identical session back); hence two back-to-back submissions before the
feedback clears count exactly one turn, bump the score by at most 1, and
the second submission changes nothing at all. -/
theorem C6_duplicate_ignored (s : Session) :
    (s.feedback ≠ Feedback.none → handleCheckAnswer s = s) ∧
    (jsTrim s.userInput ≠ "" → s.feedback = Feedback.none →
      s.currentCardIndex < s.shuffledDeck.length →
      handleCheckAnswer (handleCheckAnswer s) = handleCheckAnswer s ∧
      (handleCheckAnswer s).cardsAnswered = s.cardsAnswered + 1 ∧
      (handleCheckAnswer s).score ≤ s.score + 1) := by
  constructor
  · exact handleCheckAnswer_of_feedback_ne s
  · intro h1 h2 hlen
    obtain ⟨card, hCard⟩ : ∃ card, s.shuffledDeck.get? s.currentCardIndex = some card :=
      ⟨_, List.get?_eq_get hlen⟩
    have hne : (handleCheckAnswer s).feedback ≠ Feedback.none := by
      simp only [handleCheckAnswer, h1, h2, hCard]
      by_cases hc : compareAnswer s.currentTurnMode card s.userInput <;> simp [hc]
    refine ⟨handleCheckAnswer_of_feedback_ne _ hne, ?_, ?_⟩ <;>
      simp only [handleCheckAnswer, h1, h2, hCard] <;>
      by_cases hc : compareAnswer s.currentTurnMode card s.userInput <;> simp [hc]

/-- C6 witness: the duplicate-submission theorem at a session already
showing feedback and at a session about to submit. -/
theorem C6_witness :
    (handleCheckAnswer sampleFeedbackShown = sampleFeedbackShown) ∧
    (handleCheckAnswer (handleCheckAnswer sampleActive) = handleCheckAnswer sampleActive ∧
      (handleCheckAnswer sampleActive).cardsAnswered = sampleActive.cardsAnswered + 1 ∧
      (handleCheckAnswer sampleActive).score ≤ sampleActive.score + 1) :=
  ⟨(C6_duplicate_ignored sampleFeedbackShown).1 (by decide),
    (C6_duplicate_ignored sampleActive).2 (by decide) (by decide) (by decide)⟩

/-! ## Effect-pass lemmas -/

/-- An effect whose dependency tuple is unchanged does not run. -/
theorem runEffect1_of_deps_eq (c : CompState) (h : eff1DepsOf c.sess = c.eff1Deps) :
    runEffect1 c = c := by
  simp [runEffect1, h]

/-- An effect whose dependency tuple is unchanged does not run. -/
theorem runEffect2_of_deps_eq (c : CompState) (h : eff2DepsOf c.sess = c.eff2Deps) :
    runEffect2 c = c := by
  simp [runEffect2, h]

/-- The first effect writes no session field other than `lessonState`, and
touches neither the auto-advance timeout nor the second effect's recorded
dependencies. -/
theorem runEffect1_frame (c : CompState) :
    SessFrame c.sess (runEffect1 c).sess ∧
    (runEffect1 c).advPending = c.advPending ∧
    (runEffect1 c).eff2Deps = c.eff2Deps := by
  simp only [runEffect1]
  split_ifs <;> simp [SessFrame]

/-- The second effect writes only `advPending` and its own recorded
dependencies. -/
theorem runEffect2_frame (c : CompState) :
    (runEffect2 c).sess = c.sess ∧
    (runEffect2 c).tickInstalled = c.tickInstalled ∧
    (runEffect2 c).eff1Deps = c.eff1Deps := by
  simp only [runEffect2]
  split_ifs <;> simp

theorem sessFrame_trans {s t u : Session}
    (h1 : SessFrame s t) (h2 : SessFrame t u) : SessFrame s u := by
  obtain ⟨a1, a2, a3, a4, a5, a6, a7, a8, a9, a10, a11⟩ := h1
  obtain ⟨b1, b2, b3, b4, b5, b6, b7, b8, b9, b10, b11⟩ := h2
  exact ⟨b1.trans a1, b2.trans a2, b3.trans a3, b4.trans a4, b5.trans a5,
    b6.trans a6, b7.trans a7, b8.trans a8, b9.trans a9, b10.trans a10, b11.trans a11⟩

/-- One render's effect pass preserves every session field except
`lessonState`. -/
theorem runEffects_sessFrame (c : CompState) : SessFrame c.sess (runEffects c).sess := by
  have h2 : (runEffects c).sess = (runEffect1 c).sess := (runEffect2_frame (runEffect1 c)).1
  rw [h2]
  exact (runEffect1_frame c).1

/-- Settling preserves every session field except `lessonState`. -/
theorem settle_sessFrame (c : CompState) : SessFrame c.sess (settle c).sess :=
  sessFrame_trans (runEffects_sessFrame c) (runEffects_sessFrame (runEffects c))

/-- While time remains, the first effect cannot switch to the summary
state. -/
theorem runEffect1_lessonState_of_pos (c : CompState) (h : 0 < c.sess.timeLeft) :
    (runEffect1 c).sess.lessonState = c.sess.lessonState := by
  simp only [runEffect1]
  split_ifs with h1 h2 h3
  · rfl
  · rfl
  · exact absurd h3.1 (Nat.pos_iff_ne_zero.mp h)
  · rfl

/-- While time remains, settling does not change `lessonState`. -/
theorem settle_lessonState_of_pos (c : CompState) (h : 0 < c.sess.timeLeft) :
    (settle c).sess.lessonState = c.sess.lessonState := by
  obtain ⟨-, -, -, -, -, -, -, htl1, -, -, -⟩ := (runEffect1_frame c).1
  have hs1 : (runEffects c).sess = (runEffect1 c).sess := (runEffect2_frame (runEffect1 c)).1
  have hpos1 : 0 < (runEffects c).sess.timeLeft := by
    rw [hs1, htl1]
    exact h
  have h1 : (runEffects c).sess.lessonState = c.sess.lessonState := by
    rw [hs1, runEffect1_lessonState_of_pos c h]
  have hs2 : (settle c).sess = (runEffect1 (runEffects c)).sess :=
    (runEffect2_frame (runEffect1 (runEffects c))).1
  rw [hs2, runEffect1_lessonState_of_pos (runEffects c) hpos1, h1]

theorem session_eq_of_fields {s t : Session}
    (h1 : t.lessonState = s.lessonState) (h2 : t.lessonMode = s.lessonMode)
    (h3 : t.shuffledDeck = s.shuffledDeck) (h4 : t.currentCardIndex = s.currentCardIndex)
    (h5 : t.currentTurnMode = s.currentTurnMode) (h6 : t.userInput = s.userInput)
    (h7 : t.feedback = s.feedback) (h8 : t.score = s.score) (h9 : t.timeLeft = s.timeLeft)
    (h10 : t.cardsAnswered = s.cardsAnswered) (h11 : t.isPaused = s.isPaused)
    (h12 : t.incorrectAnswers = s.incorrectAnswers) : t = s := by
  cases s
  cases t
  simp_all

/-- While time remains, settling leaves the whole session untouched. -/
theorem settle_sess_of_pos (c : CompState) (h : 0 < c.sess.timeLeft) :
    (settle c).sess = c.sess := by
  obtain ⟨a1, a2, a3, a4, a5, a6, a7, a8, a9, a10, a11⟩ := settle_sessFrame c
  exact session_eq_of_fields (settle_lessonState_of_pos c h)
    a1 a2 a3 a4 a5 a6 a7 a8 a9 a10 a11

/-- Elementwise description of the auto-advance callback. -/
theorem applyAdvance_fields (r : Nat) (s : Session) :
    (applyAdvance r s).lessonState = s.lessonState ∧
    (applyAdvance r s).lessonMode = s.lessonMode ∧
    (applyAdvance r s).shuffledDeck = s.shuffledDeck ∧
    (applyAdvance r s).timeLeft = s.timeLeft ∧
    (applyAdvance r s).isPaused = s.isPaused ∧
    (applyAdvance r s).score = s.score ∧
    (applyAdvance r s).cardsAnswered = s.cardsAnswered ∧
    (applyAdvance r s).incorrectAnswers = s.incorrectAnswers ∧
    (applyAdvance r s).feedback = Feedback.none ∧
    (applyAdvance r s).userInput = "" ∧
    (applyAdvance r s).currentCardIndex = (s.currentCardIndex + 1) % s.shuffledDeck.length := by
  unfold applyAdvance
  by_cases hm : s.lessonMode = LessonMode.mixed <;> simp [hm]

/-- A cleared timeout stays cleared through the second effect when no
feedback is showing. -/
theorem runEffect2_advPending_false (c : CompState)
    (hadv : c.advPending = false) (hf : c.sess.feedback = Feedback.none) :
    (runEffect2 c).advPending = false := by
  simp only [runEffect2]
  split_ifs with h1 h2
  · exact hadv
  · exact absurd hf h2
  · rfl

/-- Firing the pending auto-advance timeout: the step succeeds, the
feedback and input buffer are cleared, the index advances cyclically, and
every other session field — in particular the phase and the pause flag —
is untouched; the timeout is consumed. -/
theorem step_advanceFire_spec (c : CompState) (r : Nat)
    (hPend : c.advPending = true) (hS1 : c.eff1Deps = eff1DepsOf c.sess) :
    ∃ c', step c (Event.advanceFire r) = some c' ∧
      c'.sess.feedback = Feedback.none ∧
      c'.sess.userInput = "" ∧
      c'.sess.currentCardIndex = (c.sess.currentCardIndex + 1) % c.sess.shuffledDeck.length ∧
      c'.sess.lessonState = c.sess.lessonState ∧
      c'.sess.isPaused = c.sess.isPaused ∧
      c'.sess.score = c.sess.score ∧
      c'.sess.cardsAnswered = c.sess.cardsAnswered ∧
      c'.sess.incorrectAnswers = c.sess.incorrectAnswers ∧
      c'.sess.shuffledDeck = c.sess.shuffledDeck ∧
      c'.advPending = false := by
  obtain ⟨hls, hlm, hsd, htl, hip, hsc, hca, hia, hfb, hui, hci⟩ :=
    applyAdvance_fields r c.sess
  have hd1 : eff1DepsOf (applyAdvance r c.sess) = c.eff1Deps := by
    rw [hS1]
    simp [eff1DepsOf, hls, htl, hip]
  have he1 : runEffect1 { c with advPending := false, sess := applyAdvance r c.sess } =
      { c with advPending := false, sess := applyAdvance r c.sess } :=
    runEffect1_of_deps_eq _ hd1
  have hr : runEffects { c with advPending := false, sess := applyAdvance r c.sess } =
      runEffect2 { c with advPending := false, sess := applyAdvance r c.sess } := by
    show runEffect2 (runEffect1 _) = _
    rw [he1]
  have hdsess : (runEffect2 { c with advPending := false, sess := applyAdvance r c.sess }).sess
      = applyAdvance r c.sess :=
    (runEffect2_frame _).1
  have hdeff1 : (runEffect2 { c with advPending := false, sess := applyAdvance r c.sess }).eff1Deps
      = c.eff1Deps :=
    (runEffect2_frame _).2.2
  have hdadv : (runEffect2 { c with advPending := false, sess := applyAdvance r c.sess }).advPending
      = false :=
    runEffect2_advPending_false _ rfl hfb
  have he1d : runEffect1 (runEffect2 { c with advPending := false, sess := applyAdvance r c.sess })
      = runEffect2 { c with advPending := false, sess := applyAdvance r c.sess } := by
    apply runEffect1_of_deps_eq
    rw [hdsess, hdeff1]
    exact hd1
  have hsettle : settle { c with advPending := false, sess := applyAdvance r c.sess } =
      runEffect2 (runEffect2 { c with advPending := false, sess := applyAdvance r c.sess }) := by
    show runEffects (runEffects _) = _
    rw [hr]
    show runEffect2 (runEffect1 _) = _
    rw [he1d]
  have hfinsess : (settle { c with advPending := false, sess := applyAdvance r c.sess }).sess =
      applyAdvance r c.sess := by
    rw [hsettle, (runEffect2_frame _).1, hdsess]
  have hfinadv : (settle { c with advPending := false, sess := applyAdvance r c.sess }).advPending =
      false := by
    rw [hsettle]
    apply runEffect2_advPending_false _ hdadv
    rw [hdsess]
    exact hfb
  refine ⟨settle { c with advPending := false, sess := applyAdvance r c.sess }, ?_,
    ?_, ?_, ?_, ?_, ?_, ?_, ?_, ?_, ?_, hfinadv⟩
  · simp [step, hPend]
  · rw [hfinsess]; exact hfb
  · rw [hfinsess]; exact hui
  · rw [hfinsess]; exact hci
  · rw [hfinsess]; exact hls
  · rw [hfinsess]; exact hip
  · rw [hfinsess]; exact hsc
  · rw [hfinsess]; exact hca
  · rw [hfinsess]; exact hia
  · rw [hfinsess]; exact hsd

/-- Delivering a tick at `timeLeft = 1` in a settled active state: the
session transitions to the summary state within the same settle, the tick
interval is uninstalled, and — decisively — `advPending` is carried over
unchanged: the auto-advance timeout is not cancelled. -/
theorem settle_tick_expiry (c : CompState)
    (hA : c.sess.lessonState = LessonState.active) (hT : c.sess.timeLeft = 1)
    (hS1 : c.eff1Deps = eff1DepsOf c.sess) (hS2 : c.eff2Deps = eff2DepsOf c.sess) :
    settle { c with sess := applyTick c.sess } =
      { sess := { c.sess with timeLeft := 0, lessonState := LessonState.summary }
        tickInstalled := false
        advPending := c.advPending
        eff1Deps := (LessonState.summary, 0, c.sess.isPaused)
        eff2Deps := c.eff2Deps } := by
  simp [settle, runEffects, runEffect1, runEffect2, applyTick, eff1DepsOf, eff2DepsOf,
    hA, hT, hS1, hS2]

/-! ## The temporal claims -/

/-- C10: at the moment of a pause or resume toggle, only the paused flag
changes: the session after the toggle is the session before with
`isPaused` flipped (for pause) or cleared (for the resume button); for an
active session with time remaining the phase also stays active. -/
theorem C10_pause_frame (c : CompState)
    (hA : c.sess.lessonState = LessonState.active) (hT : 0 < c.sess.timeLeft) :
    (∃ c', step c Event.togglePause = some c' ∧
      c'.sess = { c.sess with isPaused := !c.sess.isPaused } ∧
      c'.sess.lessonState = LessonState.active) ∧
    (∃ c'', step c Event.pressResume = some c'' ∧
      c''.sess = { c.sess with isPaused := false } ∧
      c''.sess.lessonState = LessonState.active) := by
  constructor
  · have h1 := settle_sess_of_pos
      { c with sess := { c.sess with isPaused := !c.sess.isPaused } } hT
    exact ⟨_, rfl, by rw [h1], by rw [h1]; exact hA⟩
  · have h2 := settle_sess_of_pos
      { c with sess := { c.sess with isPaused := false } } hT
    exact ⟨_, rfl, by rw [h2], by rw [h2]; exact hA⟩

/-- C10 witness: the frame theorem at a concrete settled active state. -/
theorem C10_witness :
    sampleActiveComp.sess.lessonState = LessonState.active ∧
    0 < sampleActiveComp.sess.timeLeft ∧
    ((∃ c', step sampleActiveComp Event.togglePause = some c' ∧
        c'.sess = { sampleActiveComp.sess with
          isPaused := !sampleActiveComp.sess.isPaused } ∧
        c'.sess.lessonState = LessonState.active) ∧
      (∃ c'', step sampleActiveComp Event.pressResume = some c'' ∧
        c''.sess = { sampleActiveComp.sess with isPaused := false } ∧
        c''.sess.lessonState = LessonState.active)) :=
  ⟨by decide, by decide, C10_pause_frame sampleActiveComp (by decide) (by decide)⟩

/-- C1 counterexample: start a two-card lesson, answer `"x"` (incorrectly),
pause while the feedback timeout is pending.  In the paused state the tick
interval is uninstalled but the timeout is still pending, and delivering
its firing succeeds: the feedback and the input buffer are cleared and the
index advances from 0 to 1 with `isPaused` still `true` — the pending
auto-advance fires its full logic during the pause, so the two timer
sources are not behind one shared pause gate. -/
theorem C1_cex :
    (run initComp pausedTrace).map
      (fun c => (c.sess.isPaused, c.sess.feedback, c.sess.currentCardIndex,
        c.sess.userInput, c.advPending, c.tickInstalled)) =
      some (true, Feedback.incorrect, 0, "x", true, false) ∧
    (run initComp (pausedTrace ++ [Event.advanceFire 0])).map
      (fun c => (c.sess.isPaused, c.sess.feedback, c.sess.currentCardIndex,
        c.sess.userInput, c.advPending)) =
      some (true, Feedback.none, 1, "", false) :=
  ⟨by decide, by decide⟩

/-- C1 (amended): pausing suspends only the tick source.  While
`isPaused = true` no tick fires (whenever the tick interval correctly
reflects its guard, it is uninstalled, so the tick event is disabled); but
a pending auto-advance timeout is not gated by the pause: it remains
enabled, and firing it executes its full logic — clearing feedback,
clearing the input buffer, advancing the current index — with the session
still paused. -/
theorem C1_amended (c : CompState) (r : Nat)
    (hPaused : c.sess.isPaused = true)
    (hTickInv : c.tickInstalled = true ↔
      (c.sess.lessonState = LessonState.active ∧ c.sess.isPaused = false ∧
        0 < c.sess.timeLeft))
    (hPend : c.advPending = true)
    (hS1 : c.eff1Deps = eff1DepsOf c.sess) :
    step c Event.tick = Option.none ∧
    ∃ c', step c (Event.advanceFire r) = some c' ∧
      c'.sess.isPaused = true ∧
      c'.sess.feedback = Feedback.none ∧
      c'.sess.userInput = "" ∧
      c'.sess.currentCardIndex = (c.sess.currentCardIndex + 1) % c.sess.shuffledDeck.length := by
  constructor
  · cases hb : c.tickInstalled with
    | false => simp [step, hb]
    | true =>
      have hfalse := (hTickInv.mp hb).2.1
      rw [hPaused] at hfalse
      exact absurd hfalse (by decide)
  · obtain ⟨c', h1, hfb, hui, hci, hls, hip, -, -, -, -, -⟩ :=
      step_advanceFire_spec c r hPend hS1
    refine ⟨c', h1, ?_, hfb, hui, hci⟩
    rw [hip, hPaused]

/-- C1 witness: the amended theorem at the concrete paused state reached
by `pausedTrace`. -/
theorem C1_witness :
    samplePaused.sess.isPaused = true ∧
    (samplePaused.tickInstalled = true ↔
      (samplePaused.sess.lessonState = LessonState.active ∧
        samplePaused.sess.isPaused = false ∧ 0 < samplePaused.sess.timeLeft)) ∧
    samplePaused.advPending = true ∧
    samplePaused.eff1Deps = eff1DepsOf samplePaused.sess ∧
    (step samplePaused Event.tick = Option.none ∧
      ∃ c', step samplePaused (Event.advanceFire 0) = some c' ∧
        c'.sess.isPaused = true ∧
        c'.sess.feedback = Feedback.none ∧
        c'.sess.userInput = "" ∧
        c'.sess.currentCardIndex =
          (samplePaused.sess.currentCardIndex + 1) % samplePaused.sess.shuffledDeck.length) :=
  ⟨by decide, by decide, by decide, by decide,
    C1_amended samplePaused 0 (by decide) (by decide) (by decide) (by decide)⟩

/-- C3 counterexample: start a two-card lesson, let 299 ticks pass, answer
`"x"` (incorrectly), then deliver the tick that exhausts the time while
the feedback timeout is pending.  The session is in the summary state yet
`advPending` is still `true` — the timeout was not cancelled — and
delivering its firing succeeds: the feedback and input buffer are cleared
and the index advances, all after the transition to Summary. -/
theorem C3_cex :
    (run initComp expiryTrace).map
      (fun c => (c.sess.lessonState, c.advPending, c.sess.feedback,
        c.sess.currentCardIndex, c.sess.userInput, c.sess.timeLeft)) =
      some (LessonState.summary, true, Feedback.incorrect, 0, "x", 0) ∧
    (run initComp (expiryTrace ++ [Event.advanceFire 0])).map
      (fun c => (c.sess.lessonState, c.advPending, c.sess.feedback,
        c.sess.currentCardIndex, c.sess.userInput, c.sess.timeLeft)) =
      some (LessonState.summary, false, Feedback.none, 1, "", 0) :=
  ⟨by decide, by decide⟩

/-- C3 (amended): a tick that drives the remaining time to 0 moves the
session to the summary state immediately, but the pending auto-advance
timeout is not cancelled: it survives the transition, and firing it later
still executes its logic — clearing feedback, clearing the input buffer,
advancing the index — inside the summary phase; the score, the answered
count and the missed list are unaffected by that firing. -/
theorem C3_amended (c : CompState) (r : Nat)
    (hA : c.sess.lessonState = LessonState.active) (hT : c.sess.timeLeft = 1)
    (hTick : c.tickInstalled = true) (hPend : c.advPending = true)
    (hS1 : c.eff1Deps = eff1DepsOf c.sess) (hS2 : c.eff2Deps = eff2DepsOf c.sess) :
    ∃ c', step c Event.tick = some c' ∧
      c'.sess.lessonState = LessonState.summary ∧
      c'.advPending = true ∧
      c'.sess.score = c.sess.score ∧
      c'.sess.cardsAnswered = c.sess.cardsAnswered ∧
      c'.sess.incorrectAnswers = c.sess.incorrectAnswers ∧
      ∃ c'', step c' (Event.advanceFire r) = some c'' ∧
        c''.sess.lessonState = LessonState.summary ∧
        c''.sess.feedback = Feedback.none ∧
        c''.sess.userInput = "" ∧
        c''.sess.currentCardIndex =
          (c'.sess.currentCardIndex + 1) % c'.sess.shuffledDeck.length ∧
        c''.sess.score = c.sess.score ∧
        c''.sess.cardsAnswered = c.sess.cardsAnswered ∧
        c''.sess.incorrectAnswers = c.sess.incorrectAnswers := by
  have hstep : step c Event.tick = some (settle { c with sess := applyTick c.sess }) := by
    simp [step, hTick]
  rw [settle_tick_expiry c hA hT hS1 hS2] at hstep
  refine ⟨_, hstep, rfl, hPend, rfl, rfl, rfl, ?_⟩
  obtain ⟨c'', h2, hfb, hui, hci, hls2, -, hsc2, hca2, hia2, -, -⟩ :=
    step_advanceFire_spec
      { sess := { c.sess with timeLeft := 0, lessonState := LessonState.summary }
        tickInstalled := false
        advPending := c.advPending
        eff1Deps := (LessonState.summary, 0, c.sess.isPaused)
        eff2Deps := c.eff2Deps } r hPend rfl
  exact ⟨c'', h2, by rw [hls2], hfb, hui, hci, hsc2, hca2, hia2⟩

/-- C3 witness: the amended theorem at a concrete settled state one tick
before expiry with feedback showing. -/
theorem C3_witness :
    sampleNearEnd.sess.lessonState = LessonState.active ∧
    sampleNearEnd.sess.timeLeft = 1 ∧
    sampleNearEnd.tickInstalled = true ∧
    sampleNearEnd.advPending = true ∧
    sampleNearEnd.eff1Deps = eff1DepsOf sampleNearEnd.sess ∧
    sampleNearEnd.eff2Deps = eff2DepsOf sampleNearEnd.sess ∧
    (∃ c', step sampleNearEnd Event.tick = some c' ∧
      c'.sess.lessonState = LessonState.summary ∧
      c'.advPending = true ∧
      c'.sess.score = sampleNearEnd.sess.score ∧
      c'.sess.cardsAnswered = sampleNearEnd.sess.cardsAnswered ∧
      c'.sess.incorrectAnswers = sampleNearEnd.sess.incorrectAnswers ∧
      ∃ c'', step c' (Event.advanceFire 0) = some c'' ∧
        c''.sess.lessonState = LessonState.summary ∧
        c''.sess.feedback = Feedback.none ∧
        c''.sess.userInput = "" ∧
        c''.sess.currentCardIndex =
          (c'.sess.currentCardIndex + 1) % c'.sess.shuffledDeck.length ∧
        c''.sess.score = sampleNearEnd.sess.score ∧
        c''.sess.cardsAnswered = sampleNearEnd.sess.cardsAnswered ∧
        c''.sess.incorrectAnswers = sampleNearEnd.sess.incorrectAnswers) :=
  ⟨by decide, by decide, by decide, by decide, by decide, by decide,
    C3_amended sampleNearEnd 0 (by decide) (by decide) (by decide) (by decide)
      (by decide) (by decide)⟩

end ScanHanzi
